import Mathlib

set_option maxRecDepth 4000

/-!
Verification of the HumanEval evaluation harness
(`Evaluation/HumanEval/eval_instruct_vllm.py`).

The script is a thin orchestration pipeline: load benchmark problems from a
newline-delimited JSON file, build an instruction prompt per problem, run one
batched inference call, extract a code block from each completion, write the
augmented records back to disk and invoke the functional-correctness
evaluator.  We embed the pure string manipulation directly and model the
effectful parts (file system, tokenizer, inference engine) as explicit data:
an argument record, an oracle for the engine's outputs, and a trace of
side-effecting steps in program order.

Python strings are modelled as Lean `String` (a wrapper around `List Char`);
`str.strip`, `str.lower`, `os.path.join` and `os.path.basename` are embedded
for the argument values the script actually passes (ASCII text).
-/

/-- Whitespace characters removed by Python's `str.strip()` (ASCII range). -/
def isPySpace (c : Char) : Bool :=
  c = ' ' || c = '\t' || c = '\n' || c = '\r' || c = '\x0b' || c = '\x0c'

/-- Python `str.strip()`: drop leading and trailing whitespace. -/
def pyStrip (s : String) : String :=
  ⟨((s.data.dropWhile isPySpace).reverse.dropWhile isPySpace).reverse⟩

/-- Python `str.lower()` (ASCII letters, which is all the script passes). -/
def pyLower (s : String) : String :=
  ⟨s.data.map Char.toLower⟩

/-- The fixed instruction text that precedes the fenced block in
`build_deepseekcoder_instruction` (the template literal after `.strip()`,
up to the opening fence). -/
def instructionHeader : String :=
  "Please continue to complete the function. You are not allowed to modify the given code and do the completion only. Please return all completed function in a codeblock. Here is the given code to do completion:\n"

/-- `build_deepseekcoder_instruction(languge, question)`: the template string
is stripped and then formatted with `languge.lower()` and `question.strip()`,
yielding the header, an opening fence tagged with the lowercased language, the
stripped stub, and a closing fence. -/
def build_deepseekcoder_instruction (languge question : String) : String :=
  instructionHeader ++ "```" ++ pyLower languge ++ "\n" ++ pyStrip question ++ "\n```"

/-- The characters of a code fence. -/
def fenceChars : List Char := '`' :: '`' :: '`' :: []

/-- Number of positions of `l` at which `pat` occurs (as a contiguous
sublist); used to count fence occurrences. -/
def countSub (pat : List Char) : List Char → Nat
  | [] => 0
  | c :: rest => (if pat.isPrefixOf (c :: rest) then 1 else 0) + countSub pat rest

/-- A benchmark record as the script manipulates it: the fields the pipeline
reads or writes (`task_id`, `prompt`, `output`, `code`) plus the remaining
JSON fields of the loaded object, kept as an ordered key-value list. -/
structure Example where
  task_id : String
  prompt : String
  output : Option String
  code : Option String
  rest : List (String × String)
  deriving DecidableEq, Repr

/-- The parsed command-line arguments of the script. -/
structure Args where
  model_path : String
  gpus_num : Nat
  output_path : String
  language : String
  temp_dir : String
  seed : Int
  deriving DecidableEq, Repr

/-- One inference-engine result for one prompt: its list of candidate
completion texts (the script reads candidate `[0]`). -/
structure RequestOutput where
  outputs : List String
  deriving DecidableEq, Repr

/-- `os.path.basename`: the part of the path after the last slash. -/
def basename (p : String) : String :=
  ⟨(p.data.reverse.takeWhile (fun c => c ≠ '/')).reverse⟩

/-- `os.path.join a b` for one component (POSIX): `b` if `b` is absolute,
otherwise `a` and `b` joined with a single slash. -/
def pyJoin (a b : String) : String :=
  if b.data.head? = some '/' then b
  else if a.data = [] then b
  else if a.data.getLast? = some '/' then a ++ b
  else a ++ "/" ++ b

/-- `data_abs_dir`: the script's `Path(__file__).parent / "data"`, modelled
relative to the script directory. -/
def data_abs_dir : String := "data"

/-- The benchmark problem file for a language:
`os.path.join(data_abs_dir, f"humaneval-{lang}.jsonl")`. -/
def problem_file (lang : String) : String :=
  pyJoin data_abs_dir ("humaneval-" ++ lang ++ ".jsonl")

/-- Split off the first occurrence of a code fence: `some (pre, post)` when
the character list is `pre ++ fenceChars ++ post` with `pre` fence-free,
`none` when no fence occurs. -/
def findFence : List Char → Option (List Char × List Char)
  | [] => none
  | c :: rest =>
      if fenceChars.isPrefixOf (c :: rest) then some ([], rest.drop 2)
      else
        match findFence rest with
        | some (pre, post) => some (c :: pre, post)
        | none => none

/-- Modelled from the spec: the Code Extractor of `utils.utils
.extract_generation_code`, whose source is not in the repository snapshot
(only this caller is).  Per the spec it "locates the model's fenced code
block within free-form text and extracts the code": it returns the contents
of the first fenced block (after the fence's tag line, up to the closing
fence), and per the spec's pinned fallback returns the raw text unchanged
when no fenced block is present. -/
def extractCodeText (_lang_code text : String) : String :=
  match findFence text.data with
  | none => text
  | some (_, post) =>
      let body := (post.dropWhile (fun c => c ≠ '\n')).drop 1
      match findFence body with
      | none => ⟨body⟩
      | some (pre, _) => ⟨pre⟩

/-- Modelled from the spec: `utils.utils.extract_generation_code` at the
record level — "returns the record augmented with a normalized `code` field",
reading the raw model text from the record's `output` field and leaving every
other field unchanged. -/
def extract_generation_code (ex : Example) (lang_code : String) : Example :=
  { ex with code := some (extractCodeText lang_code (ex.output.getD "")) }

/-- JSON string escaping of one character as `json.dumps` produces it for the
characters that can occur here (in particular `'\n'` is escaped, so a
serialized record never spans lines). -/
def escChar (c : Char) : List Char :=
  if c = '"' then '\\' :: '"' :: []
  else if c = '\\' then '\\' :: '\\' :: []
  else if c = '\n' then '\\' :: 'n' :: []
  else if c = '\r' then '\\' :: 'r' :: []
  else if c = '\t' then '\\' :: 't' :: []
  else c :: []

/-- JSON string escaping of a whole string. -/
def escStr (s : String) : List Char :=
  (s.data.map escChar).flatten

/-- A JSON string literal: quotes around the escaped contents. -/
def quoteStr (s : String) : List Char :=
  '"' :: escStr s ++ '"' :: []

/-- One `"key": "value"` member of a serialized object. -/
def fieldChars (k v : String) : List Char :=
  quoteStr k ++ ':' :: ' ' :: quoteStr v

/-- Members joined with `", "`, the default `json.dumps` separator. -/
def joinFields : List (List Char) → List Char
  | [] => []
  | f :: [] => f
  | f :: g :: fs => f ++ ',' :: ' ' :: joinFields (g :: fs)

/-- `json.dumps(ex)`: the record as a one-line JSON object, fields in the
order the script produces them (loaded fields first, then the appended
`output` and `code`). -/
def serialize_example (ex : Example) : String :=
  ⟨'\x7b' :: joinFields
      (fieldChars "task_id" ex.task_id :: fieldChars "prompt" ex.prompt ::
        (ex.rest.map (fun kv => fieldChars kv.1 kv.2) ++
          (match ex.output with | some s => [fieldChars "output" s] | none => []) ++
          (match ex.code with | some s => [fieldChars "code" s] | none => []))) ++
    '\x7d' :: []⟩

/-- The loader `[json.loads(x) for x in open(file) if x.strip()]`: the file's
lines (`parse` stands for `json.loads`) with blank and whitespace-only lines
dropped, in file order. -/
def load_examples (parse : String → Example) (lines : List String) : List Example :=
  (lines.filter (fun x => decide (pyStrip x ≠ ""))).map parse

/-- The writer loop `for ex in generated_examples: fw.write(json.dumps(ex) + "\n")`:
the lines of the freshly written file, one serialized record each (the `"w"`
open mode truncates, so the result does not depend on prior contents). -/
def write_jsonl (exs : List Example) : List String :=
  exs.map serialize_example

/-- The file contents after `open(path, "w")` plus the writer loop: the old
contents are discarded entirely. -/
def write_file (_oldLines : List String) (exs : List Example) : List String :=
  write_jsonl exs

/-- The sampling configuration the script builds (numeric literals read as
rationals). -/
structure SamplingParamsCfg where
  temperature : ℚ
  max_tokens : Nat
  top_p : ℚ
  stop_token_ids : List Nat
  deriving DecidableEq, Repr

/-- `SamplingParams(temperature=0, max_tokens=1024, top_p=0.95,
stop_token_ids=[tokenizer.eos_token_id])`. -/
def sampling_params (eos_token_id : Nat) : SamplingParamsCfg :=
  { temperature := 0
    max_tokens := 1024
    top_p := 95 / 100
    stop_token_ids := [eos_token_id] }

/-- The generation loop of `generate_main`: for each index `i`, take request
output `i`, read its first candidate text (`output.outputs[0].text`), store it
in `examples[i]["output"]`, and run the extractor.  `zip` pairs examples with
request outputs index-aligned (the engine returns one result per prompt). -/
def generate_records (lang : String) (examples : List Example)
    (outputs : List RequestOutput) : List Example :=
  (examples.zip outputs).map
    (fun p => extract_generation_code { p.1 with output := some (p.2.outputs.headD "") } lang)

/-- One side-effecting operation of the script, in program order. -/
inductive Step where
  | setEnv (key value : String)
  | setSeed (n : Int)
  | makeDirs (dir : String)
  | loadTokenizer (path : String)
  | loadLLM (path : String)
  | applyChatTemplate
  | readFile (path : String)
  | llmGenerate (numPrompts : Nat)
  | writeFile (path : String)
  | evaluate (inputFile tmpDir : String)
  deriving DecidableEq, Repr

/-- The side-effect trace of `generate_main(args)`, in source order:
`os.makedirs(temp_dir)`, tokenizer load, engine load, reading the problem
file, one chat-template rendering per loaded example, the single batched
`llm.generate` call, writing `saved_path`, and the evaluator call on it.
`examples` is the list the problem file parses to. -/
def generate_main_steps (args : Args) (examples : List Example) : List Step :=
  Step.makeDirs args.temp_dir ::
    Step.loadTokenizer args.model_path ::
    Step.loadLLM args.model_path ::
    Step.readFile (problem_file args.language) ::
    (examples.map (fun _ => Step.applyChatTemplate) ++
      (Step.llmGenerate examples.length ::
        Step.writeFile args.output_path ::
        Step.evaluate args.output_path args.temp_dir :: []))

/-- The `if __name__ == "__main__"` block after argument parsing: set the
`TOKENIZERS_PARALLELISM` environment flag, seed the random state, then run
`generate_main(args)`. -/
def main_steps (args : Args) (examples : List Example) : List Step :=
  Step.setEnv "TOKENIZERS_PARALLELISM" "false" ::
    Step.setSeed args.seed ::
    generate_main_steps args examples

/-- The two flows the script defines. -/
inductive EntryFlow where
  | generateMain
  | evaluationOnly
  deriving DecidableEq, Repr

/-- Which flow the entry point invokes: the `__main__` block calls
`generate_main(args)` unconditionally, for every parsed argument set. -/
def entry_flow (_args : Args) : EntryFlow :=
  EntryFlow.generateMain

/-- The processed copy's path in `evaluation_only`:
`os.path.join(temp_dir, os.path.basename(output_path))`. -/
def processed_path (args : Args) : String :=
  pyJoin args.temp_dir (basename args.output_path)

/-- The run of `evaluation_only(args)` against a file-existence oracle `fs`:
the executed side-effect trace paired with the assertion failure message, if
any.  The `assert os.path.exists(args.output_path)` comes first, so on a
missing file nothing is executed; otherwise the flow makes the temp dir,
reads the output file, writes the processed copy and evaluates it. -/
def evaluation_only_run (args : Args) (fs : String → Bool) :
    List Step × Option String :=
  if fs args.output_path then
    (Step.makeDirs args.temp_dir ::
        Step.readFile args.output_path ::
        Step.writeFile (processed_path args) ::
        Step.evaluate (processed_path args) args.temp_dir :: [],
      none)
  else
    ([], some ("Not fond output file: " ++ args.output_path))

/-- Steps that load or use the tokenizer. -/
def isTokenizerStep : Step → Bool
  | Step.loadTokenizer _ => true
  | Step.applyChatTemplate => true
  | _ => false

example :
    extractCodeText "python" "Sure!\n```python\nx = 1\n```\nDone." = "x = 1\n" := by
  decide

example : extractCodeText "python" "no fence here" = "no fence here" := by decide

example : countSub fenceChars "a``b```c".data = 1 := by decide

example :
    build_deepseekcoder_instruction "Python" "def f():\n    pass" =
      instructionHeader ++ "```python\ndef f():\n    pass\n```" := by decide

/-- C1 (amended): `build_deepseekcoder_instruction L Q` is the fixed
instruction header followed by exactly one fenced code block whose tag is `L`
lowercased and whose body is `Q` *stripped of leading and trailing
whitespace*; the stripped stub occurs verbatim, the fixed surrounding text
contains no fence, and whenever `Q` has no leading or trailing whitespace the
original stub text itself occurs verbatim. -/
theorem build_deepseekcoder_instruction_spec (L Q : String) :
    build_deepseekcoder_instruction L Q =
      instructionHeader ++ "```" ++ pyLower L ++ "\n" ++ pyStrip Q ++ "\n```"
    ∧ (pyStrip Q).data <:+: (build_deepseekcoder_instruction L Q).data
    ∧ countSub fenceChars instructionHeader.data = 0
    ∧ (pyStrip Q = Q → Q.data <:+: (build_deepseekcoder_instruction L Q).data) := by
  have hinf : (pyStrip Q).data <:+: (build_deepseekcoder_instruction L Q).data :=
    ⟨(instructionHeader ++ "```" ++ pyLower L ++ "\n").data, "\n```".data, rfl⟩
  refine ⟨rfl, hinf, by decide, fun h => ?_⟩
  rw [h] at hinf
  exact hinf

/-- C1 witness: evaluation of the amended theorem at a concrete language and
stub with no surrounding whitespace. -/
theorem build_deepseekcoder_instruction_spec_witness :
    "def f(): pass".data <:+:
      (build_deepseekcoder_instruction "Python" "def f(): pass").data :=
  (build_deepseekcoder_instruction_spec "Python" "def f(): pass").2.2.2 (by decide)

/-- C1 counterexample: the claim says the result contains the stub `Q`
verbatim, but the source applies `question.strip()`; for the stub `" x"`
(leading space) the rendered instruction does not contain `" x"`. -/
theorem build_deepseekcoder_instruction_not_verbatim :
    ¬ (" x".data <:+: (build_deepseekcoder_instruction "Python" " x").data) := by
  decide

/-- Shared lemma: the generation loop's record at index `i`, when example `i`
and request output `i` exist. -/
theorem generate_records_at (lang : String) (examples : List Example)
    (outputs : List RequestOutput) (i : Nat) (ex : Example) (ro : RequestOutput)
    (h1 : examples[i]? = some ex) (h2 : outputs[i]? = some ro) :
    (generate_records lang examples outputs)[i]? =
      some (extract_generation_code { ex with output := some (ro.outputs.headD "") } lang) := by
  have hz : (examples.zip outputs)[i]? = some (ex, ro) := by
    rw [List.getElem?_zip_eq_some]
    exact ⟨h1, h2⟩
  unfold generate_records
  rw [List.getElem?_map, hz]
  rfl

/-- C2: with the engine returning one result per prompt (index-aligned), the
generation loop produces exactly one record per loaded problem, the writer
emits exactly one line per record, and the record at index `i` is problem `i`
augmented with generation output `i` — in particular its `task_id` is problem
`i`'s, so ordering is preserved end-to-end. -/
theorem generate_records_aligned (lang : String) (examples : List Example)
    (outputs : List RequestOutput) (h : outputs.length = examples.length) :
    (generate_records lang examples outputs).length = examples.length
    ∧ (write_jsonl (generate_records lang examples outputs)).length = examples.length
    ∧ ∀ (i : Nat) (ex : Example) (ro : RequestOutput),
        examples[i]? = some ex → outputs[i]? = some ro →
        (generate_records lang examples outputs)[i]? =
          some (extract_generation_code { ex with output := some (ro.outputs.headD "") } lang)
        ∧ ∃ r, (generate_records lang examples outputs)[i]? = some r
            ∧ r.task_id = ex.task_id := by
  have hlen : (generate_records lang examples outputs).length = examples.length := by
    unfold generate_records
    rw [List.length_map, List.length_zip, h, Nat.min_self]
  refine ⟨hlen, by rw [write_jsonl, List.length_map, hlen], fun i ex ro h1 h2 => ?_⟩
  have hat := generate_records_at lang examples outputs i ex ro h1 h2
  exact ⟨hat, _, hat, rfl⟩

/-- C2 witness: a two-problem run with index-aligned engine results. -/
theorem generate_records_aligned_witness :
    (generate_records "python"
        (⟨"T/0", "def a():", none, none, []⟩ :: ⟨"T/1", "def b():", none, none, []⟩ :: [])
        (⟨["x"]⟩ :: ⟨["y"]⟩ :: [])).length = 2 :=
  (generate_records_aligned "python"
      (⟨"T/0", "def a():", none, none, []⟩ :: ⟨"T/1", "def b():", none, none, []⟩ :: [])
      (⟨["x"]⟩ :: ⟨["y"]⟩ :: []) rfl).1

/-- C7: every record the generate+evaluate flow writes is the corresponding
loaded input object with `output` set to the raw model text (the first
candidate of request output `i`) and `code` set by extraction; `task_id`,
`prompt` and all remaining loaded fields are unchanged. -/
theorem generate_records_frame (lang : String) (examples : List Example)
    (outputs : List RequestOutput) (i : Nat) (ex : Example) (ro : RequestOutput)
    (h1 : examples[i]? = some ex) (h2 : outputs[i]? = some ro) :
    ∃ r, (generate_records lang examples outputs)[i]? = some r
      ∧ r.task_id = ex.task_id
      ∧ r.prompt = ex.prompt
      ∧ r.rest = ex.rest
      ∧ r.output = some (ro.outputs.headD "")
      ∧ r.code = some (extractCodeText lang (ro.outputs.headD "")) :=
  ⟨extract_generation_code { ex with output := some (ro.outputs.headD "") } lang,
    generate_records_at lang examples outputs i ex ro h1 h2,
    rfl, rfl, rfl, rfl, rfl⟩

/-- C7 witness: the frame property evaluated on a one-problem run. -/
theorem generate_records_frame_witness :
    ∃ r, (generate_records "python"
            (⟨"T/0", "def a():", none, none, [("entry_point", "a")]⟩ :: [])
            (⟨["body"]⟩ :: []))[0]? = some r
      ∧ r.task_id = "T/0"
      ∧ r.prompt = "def a():"
      ∧ r.rest = [("entry_point", "a")]
      ∧ r.output = some "body"
      ∧ r.code = some (extractCodeText "python" "body") :=
  generate_records_frame "python"
    (⟨"T/0", "def a():", none, none, [("entry_point", "a")]⟩ :: [])
    (⟨["body"]⟩ :: []) 0
    ⟨"T/0", "def a():", none, none, [("entry_point", "a")]⟩ ⟨["body"]⟩ rfl rfl

/-- C3: the command-line entry point runs the generate+evaluate flow for
every parsed argument set; no argument value selects `evaluation_only`. -/
theorem entry_flow_always_generate (args : Args) :
    entry_flow args = EntryFlow.generateMain
    ∧ entry_flow args ≠ EntryFlow.evaluationOnly :=
  ⟨rfl, fun h => nomatch h⟩

/-- C9: in every run of the entry point, whenever step `i` of the trace loads
or uses the tokenizer, both the `TOKENIZERS_PARALLELISM=false` environment
flag and the seeding of the random state occur at strictly earlier steps. -/
theorem env_and_seed_before_tokenizer (args : Args) (examples : List Example)
    (i : Nat) (s : Step) (hs : (main_steps args examples)[i]? = some s)
    (ht : isTokenizerStep s = true) :
    ∃ j k, j < i ∧ k < i
      ∧ (main_steps args examples)[j]? =
          some (Step.setEnv "TOKENIZERS_PARALLELISM" "false")
      ∧ (main_steps args examples)[k]? = some (Step.setSeed args.seed) := by
  match i with
  | 0 =>
      rw [show (main_steps args examples)[0]? =
          some (Step.setEnv "TOKENIZERS_PARALLELISM" "false") from rfl] at hs
      cases hs
      exact absurd ht (by simp [isTokenizerStep])
  | 1 =>
      rw [show (main_steps args examples)[1]? = some (Step.setSeed args.seed) from rfl] at hs
      cases hs
      exact absurd ht (by simp [isTokenizerStep])
  | n + 2 =>
      exact ⟨0, 1, by omega, by omega, rfl, rfl⟩

/-- C9 witness: in the empty-benchmark trace the tokenizer load sits at index
3, after the environment flag (index 0) and the seed (index 1). -/
theorem env_and_seed_before_tokenizer_witness :
    ∃ j k, j < 3 ∧ k < 3
      ∧ (main_steps ⟨"m", 1, "o.jsonl", "python", "tmp", 42⟩ [])[j]? =
          some (Step.setEnv "TOKENIZERS_PARALLELISM" "false")
      ∧ (main_steps ⟨"m", 1, "o.jsonl", "python", "tmp", 42⟩ [])[k]? =
          some (Step.setSeed (42 : Int)) :=
  env_and_seed_before_tokenizer ⟨"m", 1, "o.jsonl", "python", "tmp", 42⟩ [] 3
    (Step.loadTokenizer "m") rfl rfl

/-- C4: in evaluate-only mode, when the file at `output_path` does not exist
the run fails with the assertion message naming that path and executes no
side-effecting step at all; when it exists the assertion passes and the flow
proceeds (make temp dir, read, write the processed copy, evaluate). -/
theorem evaluation_only_assert_first (args : Args) (fs : String → Bool) :
    (fs args.output_path = false →
        evaluation_only_run args fs =
          ([], some ("Not fond output file: " ++ args.output_path))
        ∧ args.output_path.data <:+:
            ("Not fond output file: " ++ args.output_path).data)
    ∧ (fs args.output_path = true →
        evaluation_only_run args fs =
          (Step.makeDirs args.temp_dir ::
              Step.readFile args.output_path ::
              Step.writeFile (processed_path args) ::
              Step.evaluate (processed_path args) args.temp_dir :: [],
            none)) := by
  constructor
  · intro h
    refine ⟨by simp [evaluation_only_run, h], "Not fond output file: ".data, [], ?_⟩
    simp
  · intro h
    simp [evaluation_only_run, h]

/-- C4 witness: both branches evaluated at a concrete argument set. -/
theorem evaluation_only_assert_first_witness :
    evaluation_only_run ⟨"m", 1, "out/gen.jsonl", "python", "tmp", 42⟩ (fun _ => false) =
      ([], some ("Not fond output file: " ++ "out/gen.jsonl"))
    ∧ evaluation_only_run ⟨"m", 1, "out/gen.jsonl", "python", "tmp", 42⟩ (fun _ => true) =
        (Step.makeDirs "tmp" ::
            Step.readFile "out/gen.jsonl" ::
            Step.writeFile (processed_path ⟨"m", 1, "out/gen.jsonl", "python", "tmp", 42⟩) ::
            Step.evaluate (processed_path ⟨"m", 1, "out/gen.jsonl", "python", "tmp", 42⟩)
              "tmp" :: [],
          none) :=
  ⟨((evaluation_only_assert_first ⟨"m", 1, "out/gen.jsonl", "python", "tmp", 42⟩
        (fun _ => false)).1 rfl).1,
    (evaluation_only_assert_first ⟨"m", 1, "out/gen.jsonl", "python", "tmp", 42⟩
        (fun _ => true)).2 rfl⟩

/-- C10 (amended): in evaluate-only mode, *provided the processed path
`os.path.join(temp_dir, basename(output_path))` differs from `output_path`*,
the original file is only read and never written: no write step targets
`output_path`, the processed records go to the processed path, and that path
(not the original) is what the correctness evaluator receives. -/
theorem evaluation_only_frame (args : Args) (fs : String → Bool)
    (hneq : processed_path args ≠ args.output_path) :
    Step.writeFile args.output_path ∉ (evaluation_only_run args fs).1
    ∧ (fs args.output_path = true →
        Step.readFile args.output_path ∈ (evaluation_only_run args fs).1
        ∧ Step.writeFile (processed_path args) ∈ (evaluation_only_run args fs).1
        ∧ Step.evaluate (processed_path args) args.temp_dir ∈
            (evaluation_only_run args fs).1) := by
  cases hfs : fs args.output_path
  · simp [evaluation_only_run, hfs]
  · refine ⟨?_, fun _ => ?_⟩ <;> simp [evaluation_only_run, hfs, hneq, Ne.symm hneq]

/-- C10 witness: with distinct original and processed paths, the original is
never the target of a write. -/
theorem evaluation_only_frame_witness :
    Step.writeFile "out/gen.jsonl" ∉
      (evaluation_only_run ⟨"m", 1, "out/gen.jsonl", "python", "tmp", 42⟩
          (fun _ => true)).1 :=
  (evaluation_only_frame ⟨"m", 1, "out/gen.jsonl", "python", "tmp", 42⟩ (fun _ => true)
      (by decide)).1

/-- C10 counterexample: the claim as stated fails when `output_path` already
lies in `temp_dir`: for `output_path = "tmp/gen.jsonl"` and
`temp_dir = "tmp"` the processed path equals the original path, so
evaluate-only mode does write the file at `output_path`. -/
theorem evaluation_only_writes_original :
    (⟨"m", 1, "tmp/gen.jsonl", "python", "tmp", 42⟩ : Args).output_path = "tmp/gen.jsonl"
    ∧ Step.writeFile "tmp/gen.jsonl" ∈
        (evaluation_only_run ⟨"m", 1, "tmp/gen.jsonl", "python", "tmp", 42⟩
            (fun _ => true)).1 := by
  exact ⟨rfl, by decide⟩

/-- C5: extraction is idempotent on already-extracted records — extraction of
text containing no fence (already-clean code) returns it unchanged, applying
the record-level extractor twice equals applying it once, and re-running the
evaluate-only processing pass over already-processed records reproduces them. -/
theorem extract_generation_code_idempotent (lang : String) :
    (∀ s : String, findFence s.data = none → extractCodeText lang s = s)
    ∧ (∀ ex : Example,
        extract_generation_code (extract_generation_code ex lang) lang =
          extract_generation_code ex lang)
    ∧ ∀ exs : List Example,
        (exs.map (fun ex => extract_generation_code ex lang)).map
            (fun ex => extract_generation_code ex lang) =
          exs.map (fun ex => extract_generation_code ex lang) := by
  refine ⟨fun s h => ?_, fun ex => rfl, fun exs => ?_⟩
  · unfold extractCodeText
    rw [h]
  · rw [List.map_map]
    rfl

/-- C5 witness: already-clean code passes through extraction unchanged. -/
theorem extract_generation_code_idempotent_witness :
    extractCodeText "python" "def f():\n    return 1" = "def f():\n    return 1" :=
  (extract_generation_code_idempotent "python").1 "def f():\n    return 1" (by decide)

/-- C6: the sampling configuration is temperature 0, nucleus top-p 0.95, a
fixed 1024-token budget, and the tokenizer's end-of-sequence token as the
explicit stop token; the generation trace contains exactly one batched
`llm.generate` call (over all prompts); and the processing loop reads exactly
one completion per prompt — candidate `[0]` — so any further candidates are
irrelevant to the produced records. -/
theorem sampling_and_single_batch (eos_token_id : Nat) :
    (sampling_params eos_token_id).temperature = 0
    ∧ (sampling_params eos_token_id).max_tokens = 1024
    ∧ (sampling_params eos_token_id).top_p = 95 / 100
    ∧ (sampling_params eos_token_id).stop_token_ids = [eos_token_id]
    ∧ (∀ (args : Args) (examples : List Example),
        (generate_main_steps args examples).filter
            (fun s => match s with | Step.llmGenerate _ => true | _ => false) =
          [Step.llmGenerate examples.length])
    ∧ ∀ (lang : String) (examples : List Example) (outputs : List RequestOutput),
        generate_records lang examples outputs =
          generate_records lang examples
            (outputs.map (fun ro => ⟨[ro.outputs.headD ""]⟩)) := by
  refine ⟨rfl, rfl, rfl, rfl, fun args examples => ?_, fun lang examples outputs => ?_⟩
  · simp [generate_main_steps, List.filter_append]
  · unfold generate_records
    rw [List.zip_map_right, List.map_map]
    rfl

/-- Shared lemma: JSON escaping never emits a newline character. -/
theorem escChar_no_newline (c : Char) : '\n' ∉ escChar c := by
  unfold escChar
  split_ifs with h1 h2 h3 h4 h5 <;> simp_all
  exact fun h => h3 h.symm

/-- Shared lemma: an escaped string contains no newline character. -/
theorem escStr_no_newline (s : String) : '\n' ∉ escStr s := by
  unfold escStr
  intro h
  rw [List.mem_flatten] at h
  obtain ⟨l, hl, hc⟩ := h
  rw [List.mem_map] at hl
  obtain ⟨c, _, rfl⟩ := hl
  exact escChar_no_newline c hc

/-- Shared lemma: a serialized JSON string literal contains no newline. -/
theorem quoteStr_no_newline (s : String) : '\n' ∉ quoteStr s := by
  intro h
  rcases List.mem_cons.mp h with h | h
  · exact absurd h (by decide)
  · rcases List.mem_append.mp h with h | h
    · exact escStr_no_newline s h
    · exact absurd h (by decide)

/-- Shared lemma: a serialized object member contains no newline. -/
theorem fieldChars_no_newline (k v : String) : '\n' ∉ fieldChars k v := by
  intro h
  rcases List.mem_append.mp h with h | h
  · exact quoteStr_no_newline k h
  · rcases List.mem_cons.mp h with h | h
    · exact absurd h (by decide)
    · rcases List.mem_cons.mp h with h | h
      · exact absurd h (by decide)
      · exact quoteStr_no_newline v h

/-- Shared lemma: joining newline-free members with `", "` stays
newline-free. -/
theorem joinFields_no_newline (fs : List (List Char))
    (h : ∀ f ∈ fs, '\n' ∉ f) : '\n' ∉ joinFields fs := by
  induction fs with
  | nil => simp [joinFields]
  | cons f rest ih =>
      cases rest with
      | nil => exact h f (by simp)
      | cons g fs' =>
          intro hmem
          rw [joinFields] at hmem
          rcases List.mem_append.mp hmem with hm | hm
          · exact h f (by simp) hm
          · rcases List.mem_cons.mp hm with hm | hm
            · exact absurd hm (by decide)
            · rcases List.mem_cons.mp hm with hm | hm
              · exact absurd hm (by decide)
              · exact ih (fun x hx => h x (List.mem_cons_of_mem f hx)) hm

/-- Shared lemma: a serialized record is a single line: its text contains no
newline character. -/
theorem serialize_example_no_newline (ex : Example) :
    '\n' ∉ (serialize_example ex).data := by
  intro h
  rcases List.mem_cons.mp h with h | h
  · exact absurd h (by decide)
  · rcases List.mem_append.mp h with h | h
    · refine joinFields_no_newline _ (fun f hf => ?_) h
      rcases List.mem_cons.mp hf with rfl | hf
      · exact fieldChars_no_newline _ _
      · rcases List.mem_cons.mp hf with rfl | hf
        · exact fieldChars_no_newline _ _
        · rcases List.mem_append.mp hf with hf | hf
          · rcases List.mem_append.mp hf with hf | hf
            · obtain ⟨kv, _, rfl⟩ := List.mem_map.mp hf
              exact fieldChars_no_newline _ _
            · cases hout : ex.output with
              | none => rw [hout] at hf; exact absurd hf (by simp)
              | some s =>
                  rw [hout] at hf
                  rcases List.mem_singleton.mp hf with rfl
                  exact fieldChars_no_newline _ _
          · cases hcode : ex.code with
            | none => rw [hcode] at hf; exact absurd hf (by simp)
            | some s =>
                rw [hcode] at hf
                rcases List.mem_singleton.mp hf with rfl
                exact fieldChars_no_newline _ _
    · rcases List.mem_cons.mp h with h | h
      · exact absurd h (by decide)
      · exact absurd h (by simp)

/-- C8: the loader keeps exactly the lines that are non-blank after
stripping, in file order (inserting a blank or whitespace-only line anywhere
changes nothing), and the writer emits exactly one single-line JSON object
per record while fully overwriting the destination regardless of its prior
contents. -/
theorem loader_writer_spec :
    (∀ (parse : String → Example) (pre post : List String) (b : String),
        pyStrip b = "" →
        load_examples parse (pre ++ b :: post) = load_examples parse (pre ++ post))
    ∧ (∀ (parse : String → Example) (lines : List String),
        load_examples parse lines =
          (lines.filter (fun x => decide (pyStrip x ≠ ""))).map parse)
    ∧ (∀ exs : List Example, (write_jsonl exs).length = exs.length)
    ∧ (∀ (exs : List Example) (line : String),
        line ∈ write_jsonl exs → '\n' ∉ line.data)
    ∧ ∀ (old old' : List String) (exs : List Example),
        write_file old exs = write_file old' exs := by
  refine ⟨fun parse pre post b hb => ?_, fun parse lines => rfl,
    fun exs => List.length_map exs serialize_example, fun exs line hline => ?_,
    fun old old' exs => rfl⟩
  · unfold load_examples
    rw [List.filter_append, List.filter_append, List.filter_cons_of_neg]
    simp [hb]
  · obtain ⟨ex, _, rfl⟩ := List.mem_map.mp hline
    exact serialize_example_no_newline ex

/-- C8 witness: a whitespace-only line contributes no record. -/
theorem loader_writer_spec_witness :
    load_examples (fun s => ⟨s, "", none, none, []⟩) (["a"] ++ "  " :: ["b"]) =
      load_examples (fun s => ⟨s, "", none, none, []⟩) (["a"] ++ ["b"]) :=
  loader_writer_spec.1 (fun s => ⟨s, "", none, none, []⟩) ["a"] ["b"] "  " (by decide)
